import Mathlib

/-!
# PagerDuty licenses data source

A shallow embedding of `pagerduty/data_source_pagerduty_licenses.go`:
the flattener (`flattenLicense`, `flattenLicenses`) and the read handler
(`dataSourcePagerDutyLicensesRead`) with its retry callback.

Go pointers are `Option`s, a nil dereference is the error `Panic.nilDeref`,
the result buffer and the clock are passed explicitly as a `State`.
-/

namespace Pagerduty

/-! ## Data model -/

/-- Modelled from the spec: the `License` struct of the API client library is
declared outside the sources. Section 3 lists its fields: identifier, type tag,
display name, description, summary, role group, available allocation count,
current consumption value, self URL, HTML URL and the valid role names. The
defaults are the Go zero values. -/
structure License where
  ID : String := ""
  Type_ : String := ""
  Name : String := ""
  Description : String := ""
  Summary : String := ""
  RoleGroup : String := ""
  AllocationsAvailable : Int := 0
  CurrentValue : Int := 0
  Self : String := ""
  HTMLURL : String := ""
  ValidRoles : List String := []
deriving DecidableEq, Repr

/-- A Go `interface{}` holding one of the dynamic types a license field has. -/
inductive Value where
  | str (s : String)
  | int (n : Int)
  | strs (l : List String)
deriving DecidableEq, Repr

/-- A Go `map[string]interface{}` written as a map literal: the entries in the
order of the literal. -/
abbrev Mapping := List (String × Value)

/-- The keys of a mapping. -/
def Mapping.keys (m : Mapping) : List String := m.map Prod.fst

/-- Map lookup `m[k]`. -/
def Mapping.get (m : Mapping) (k : String) : Option Value :=
  (m.find? (fun e => e.1 == k)).map Prod.snd

/-- A run-time panic of the Go program. -/
inductive Panic where
  | nilDeref
deriving DecidableEq, Repr

/-! ## Flattener -/

/-- The function `flattenLicense`: builds the map literal from the fields of `l`.
Reading a field of a nil `l` panics. -/
def flattenLicense (l : Option License) : Except Panic Mapping :=
  match l with
  | none => .error .nilDeref
  | some l =>
    .ok [ ("id", .str l.ID),
          ("type", .str l.Type_),
          ("name", .str l.Name),
          ("description", .str l.Description),
          ("summary", .str l.Summary),
          ("role_group", .str l.RoleGroup),
          ("allocations_available", .int l.AllocationsAvailable),
          ("current_value", .int l.CurrentValue),
          ("self", .str l.Self),
          ("html_url", .str l.HTMLURL),
          ("valid_roles", .strs l.ValidRoles) ]

/-- The function `flattenLicenses`: `updated[i] = flattenLicense(license)` for
every index of the input, in order; `updated` has the length of the input. A
nil slice ranges like the empty one. -/
def flattenLicenses (licenses : List (Option License)) : Except Panic (List Mapping) :=
  licenses.mapM flattenLicense

/-! ## Collaborators -/

/-- A Go `error` value: an error response of the API carrying its HTTP status,
or any other failure (network, decoding, time-out). -/
inductive GoError where
  | api (status : Nat) (msg : String)
  | other (msg : String)
deriving DecidableEq, Repr

/-- The constant `http.StatusBadRequest`. -/
def StatusBadRequest : Nat := 400

/-- Modelled from the spec: `isErrCode` is defined in another file of the
provider. Section 6 asks that errors be classifiable as bad request or other:
an error has code `code` when it is an API error response with that status. -/
def isErrCode (err : GoError) (code : Nat) : Bool :=
  match err with
  | .api status _ => status == code
  | .other _ => false

/-- The duration `time.Millisecond`, in nanoseconds as in Go. -/
def Millisecond : Nat := 1000000

/-- The duration `time.Second`. -/
def Second : Nat := 1000 * Millisecond

/-- The duration `time.Minute`. -/
def Minute : Nat := 60 * Second

/-- Modelled from the spec: `schema.ResourceData` of the plugin SDK, the result
buffer with `Get`/`Set`/`SetId` semantics of section 6. `idAttr` is the
configuration attribute `id` as the caller supplied it (`none` when it is
absent), `licenses` the computed attribute, `Id` the identifier of `SetId`. -/
structure ResourceData where
  idAttr : Option String := none
  licenses : Option (List Mapping) := none
  Id : Option String := none
deriving DecidableEq, Repr

/-- The call `d.Set(key, value)` for a list value; the source discards its
error result. Only the attribute `licenses` is a list. -/
def ResourceData.Set (d : ResourceData) (key : String) (value : List Mapping) : ResourceData :=
  if key == "licenses" then { d with licenses := some value } else d

/-- The call `d.GetOk(key)` for a string attribute: the value, and whether the
key has been set to a value other than the zero value of its type. For a string
the zero value is the empty string, so a supplied empty string counts as not
set. -/
def ResourceData.GetOk (d : ResourceData) (key : String) : String × Bool :=
  if key == "id" then
    match d.idAttr with
    | some v => (v, v != "")
    | none => ("", false)
  else ("", false)

/-- The call `d.SetId(v)`. -/
def ResourceData.SetId (d : ResourceData) (v : String) : ResourceData :=
  { d with Id := some v }

/-- One answer of the list endpoint: how long the call took and what it
returned. -/
structure ListReply where
  latency : Nat := 0
  result : Except GoError (List (Option License))

/-- The API client: `LicensesList n` is the answer to the call number `n` of
`client.Licenses.List()`. -/
structure Client where
  LicensesList : Nat → ListReply

/-- The provider configuration: the result of `meta.(*Config).Client()`. -/
structure Config where
  Client : Except GoError Client

/-- The mutable world of one read: the clock (nanoseconds), the clock value at
the start of every `List` call made (newest first), the start and duration of
every `time.Sleep` of the handler (newest first), the counter of the identifier
generator, and the result buffer. -/
structure State where
  clock : Nat := 0
  listLog : List Nat := []
  sleeps : List (Nat × Nat) := []
  idCounter : Nat := 0
  d : ResourceData
deriving DecidableEq, Repr

/-- The world while a `time.Sleep(dur)` that has just begun is running. -/
def Sleeping (dur : Nat) (s : State) : State :=
  { s with sleeps := (s.clock, dur) :: s.sleeps }

/-- The world when the call `time.Sleep(dur)` returns. -/
def Sleep (dur : Nat) (s : State) : State :=
  { Sleeping dur s with clock := s.clock + dur }

/-- The sixteen hexadecimal digits. -/
def hexDigits : List Char :=
  ['0', '1', '2', '3', '4', '5', '6', '7', '8', '9', 'a', 'b', 'c', 'd', 'e', 'f']

/-- The hexadecimal digit of a number below sixteen. -/
def hexDigit (n : Nat) : Char := hexDigits.getD n '0'

/-- The format `%08x` of a 32-bit counter: eight hexadecimal digits. -/
def hex8 (n : Nat) : String :=
  String.mk [hexDigit (n / 268435456 % 16), hexDigit (n / 16777216 % 16),
    hexDigit (n / 1048576 % 16), hexDigit (n / 65536 % 16), hexDigit (n / 4096 % 16),
    hexDigit (n / 256 % 16), hexDigit (n / 16 % 16), hexDigit (n % 16)]

/-- Modelled from the spec: `id.UniqueId` of the plugin SDK is outside the
sources; the spec asks for a freshly generated non-empty unique opaque string.
As in the SDK the 32-bit counter of the generator is advanced and the result is
the text terraform- followed by a time stamp and the counter in eight
hexadecimal digits. -/
def UniqueId (s : State) : String × State :=
  let c := (s.idCounter + 1) % 4294967296
  ("terraform-" ++ toString s.clock ++ hex8 c, { s with idCounter := c })

/-! ## Retry -/

/-- The struct `retry.RetryError`. -/
structure RetryError where
  Err : GoError
  Retryable : Bool
deriving DecidableEq, Repr

/-- The constructor `retry.NonRetryableError`. -/
def NonRetryableError (err : GoError) : RetryError := ⟨err, false⟩

/-- The constructor `retry.RetryableError`. -/
def RetryableError (err : GoError) : RetryError := ⟨err, true⟩

/-- How an invocation ends: it returns (`nil` or an error) or it panics. -/
inductive Outcome where
  | returned (err : Option GoError)
  | panicked (p : Panic)
deriving DecidableEq, Repr

/-- One execution of a `retry.RetryFunc`: the worlds it passes through, oldest
first, each stamped with the clock value at which it is reached, and what the
function ends in (`none` is the `nil` result). -/
structure Run where
  steps : List State
  result : Except Panic (Option RetryError)

/-- A `retry.RetryFunc` acting on the world. -/
abbrev RetryFunc := State → Run

/-- The world in which an execution begun in `s` ends. -/
def Run.final (r : Run) (s : State) : State := r.steps.getLast?.getD s

/-- The world at the time `t` of an execution begun in `s`: the last of its
worlds reached by then. -/
def Run.worldAt (r : Run) (s : State) (t : Nat) : State :=
  { (r.steps.filter (fun w => w.clock ≤ t)).getLast?.getD s with clock := t }

/-- What `Retry` hands back: the outcome, the world at the moment of the
return, the result of the function call that was still running then (if there
was one; it is not cancelled), and the world once that call has ended. -/
structure RetryResult where
  out : Outcome
  atReturn : State
  late : Option (Except Panic (Option RetryError))
  final : State

/-- The error of a retry that gave up before any call of the function had
ended. -/
def timeoutError : GoError := .other "timeout while waiting for state to become success"

/-- The period `refreshGracePeriod` a running call is given after the
time-out. -/
def refreshGracePeriod : Nat := 30 * Second

/-- The wait before the next attempt: twice the last one (a tenth of a second
after the first attempt), not below half a second and not above ten seconds. -/
def nextWait (wait : Nat) : Nat :=
  let w := 2 * (if wait = 0 then 100 * Millisecond else wait)
  if w < 500 * Millisecond then 500 * Millisecond
  else if 10 * Second < w then 10 * Second
  else w

/-- The loop of `Retry`, one attempt per unit of fuel, `s` being the world
after the last attempt and `wait` the pause before the next. When the deadline
is reached before the next attempt can begin, the loop returns the last error.
Otherwise the function is called. If the call is still running when the grace
period after the deadline is over, the loop returns the last error and leaves
the call running. If it has ended by then: `nil` is success, a non-retryable
error is returned at once, a retryable error is remembered and the loop goes
on. `none` means the fuel ran out. -/
def retryLoop (deadline grace : Nat) (f : RetryFunc) :
    Nat → Nat → Option GoError → State → Option RetryResult
  | 0, _, _, _ => none
  | fuel + 1, wait, last, s =>
    if deadline ≤ s.clock + wait then
      let w := { s with clock := max s.clock deadline }
      some ⟨.returned (some (last.getD timeoutError)), w, none, w⟩
    else
      let s0 := { s with clock := s.clock + wait }
      let run := f s0
      let done := run.final s0
      if deadline + grace < done.clock then
        some ⟨.returned (some (last.getD timeoutError)),
          run.worldAt s0 (deadline + grace), some run.result, done⟩
      else
        match run.result with
        | .error p => some ⟨.panicked p, done, none, done⟩
        | .ok none => some ⟨.returned none, done, none, done⟩
        | .ok (some rerr) =>
          if rerr.Retryable then
            retryLoop deadline grace f fuel (nextWait wait) (some rerr.Err) done
          else some ⟨.returned (some rerr.Err), done, none, done⟩

/-- Modelled from the spec: `retry.Retry` of the plugin SDK is outside the
sources. Section 4.1 step 2: a bounded retry loop with a total deadline of
`timeout`; success ends it, a non-retryable error fails at once, a retryable
error is retried as long as the deadline has not elapsed, and when the deadline
elapses the last error is the terminal failure. The schedule is the one of the
SDK: the first attempt at once, then pauses of 0.5, 1, 2, 4, 8, 10, 10, ...
seconds; a call running at the deadline may still end within the grace period
of thirty seconds, after which the retry gives up without cancelling it. -/
def Retry (fuel : Nat) (timeout : Nat) (f : RetryFunc) (s : State) : Option RetryResult :=
  retryLoop (s.clock + timeout) refreshGracePeriod f fuel 0 none s

/-! ## Read handler -/

/-- The function literal passed to `retry.Retry` in
`dataSourcePagerDutyLicensesRead`: one call of the list endpoint and what
follows it. The call is logged when it begins; its answer is there after the
latency of the call. -/
def readAttempt (client : Client) : RetryFunc := fun s =>
  let reply := client.LicensesList s.listLog.length
  let s1 := { s with listLog := s.clock :: s.listLog }
  let s2 := { s1 with clock := s1.clock + reply.latency }
  match reply.result with
  | .error err =>
    if isErrCode err StatusBadRequest then
      ⟨[s1, s2], .ok (some (NonRetryableError err))⟩
    else
      ⟨[s1, Sleeping (30 * Second) s2, Sleep (30 * Second) s2], .ok (some (RetryableError err))⟩
  | .ok licenses =>
    match flattenLicenses licenses with
    | .error p => ⟨[s1, s2], .error p⟩
    | .ok newLicenses =>
      let s3 := { s2 with d := s2.d.Set "licenses" newLicenses }
      let (idValue, ok) := s3.d.GetOk "id"
      if !ok then
        let (u, s4) := UniqueId s3
        ⟨[s1, { s4 with d := s4.d.SetId u }], .ok none⟩
      else
        ⟨[s1, { s3 with d := s3.d.SetId idValue }], .ok none⟩

/-- The function `dataSourcePagerDutyLicensesRead`: obtain the client, return
its error if there is one, otherwise retry `readAttempt` for five minutes. The
log line has no effect on the world. -/
def dataSourcePagerDutyLicensesRead (fuel : Nat) (cfg : Config) (s : State) :
    Option RetryResult :=
  match cfg.Client with
  | .error err => some ⟨.returned (some err), s, none, s⟩
  | .ok client => Retry fuel (5 * Minute) (readAttempt client) s

/-! ## Sample data -/

/-- A transient failure (rate limiting). -/
def errTooMany : GoError := .api 429 "Too Many Requests"

/-- A bad request. -/
def errBad : GoError := .api 400 "Bad Request"

/-- The record of the scenario of section 8. -/
def licBasic : License := { ID := "L1", Name := "Basic" }

/-- An empty result buffer whose `id` attribute is absent. -/
def d0 : ResourceData := {}

/-- The initial world with the buffer `d0`. -/
def s0 : State := { d := d0 }

/-- The initial world of a caller who supplied the identifier my-licenses. -/
def sId : State := { d := { idAttr := some "my-licenses" } }

/-- The initial world of a caller who supplied the empty string as
identifier. -/
def sEmptyId : State := { d := { idAttr := some "" } }

/-- A client that fails once with a rate-limit error and then answers with the
scenario record. -/
def clientFlaky : Client :=
  ⟨fun n => if n = 0 then { result := .error errTooMany } else { result := .ok [some licBasic] }⟩

/-- A client every call of which is a bad request. -/
def clientBad : Client := ⟨fun _ => { result := .error errBad }⟩

/-- A client whose calls take 331 seconds and are bad requests. -/
def clientLateBad : Client := ⟨fun _ => { latency := 331 * Second, result := .error errBad }⟩

/-- A client every call of which is rate limited. -/
def clientDown : Client := ⟨fun _ => { result := .error errTooMany }⟩

/-- A client that always answers with the scenario record. -/
def clientOk : Client := ⟨fun _ => { result := .ok [some licBasic] }⟩

/-- A client whose calls take 331 seconds and answer with the scenario
record. -/
def clientLateOk : Client :=
  ⟨fun _ => { latency := 331 * Second, result := .ok [some licBasic] }⟩

/-- A client whose calls take 40 seconds and fail with a server error that
carries the number of the call. -/
def clientSlow : Client :=
  ⟨fun n => { latency := 40 * Second, result := .error (.api (500 + n) "Server Error") }⟩

/-! ## Notions used in the statements -/

/-- The mapping `flattenLicense` builds for a record. -/
def mappingOf (l : License) : Mapping :=
  match flattenLicense (some l) with
  | .ok m => m
  | .error _ => []

/-- The world in which an attempt begins after the pause `wait`. -/
def waited (wait : Nat) (s : State) : State :=
  { s with clock := s.clock + wait }

/-- The world while a call of the list endpoint begun in `s` is under way. -/
def callBegun (s : State) : State :=
  { s with listLog := s.clock :: s.listLog }

/-- The world when the list endpoint has answered a call begun in `s`: the
call is logged and its latency has passed. -/
def answered (client : Client) (s : State) : State :=
  { s with listLog := s.clock :: s.listLog,
           clock := s.clock + (client.LicensesList s.listLog.length).latency }

/-- The identifier the handler resolves in the world `s`: the value of the
attribute `id` when `GetOk` reports it set, a fresh one otherwise. -/
def resolvedId (s : State) : String :=
  if (s.d.GetOk "id").2 then (s.d.GetOk "id").1 else (UniqueId s).1

/-- Whether the answer number `n` is a failure other than a bad request. -/
def isTransient (client : Client) (n : Nat) : Bool :=
  match (client.LicensesList n).result with
  | .error err => !isErrCode err StatusBadRequest
  | .ok _ => false

/-- The number of transient failures among the `k` answers from number
`start` on. -/
def transientFailures (client : Client) : Nat → Nat → Nat
  | _, 0 => 0
  | start, k + 1 =>
    (if isTransient client start then 1 else 0) + transientFailures client (start + 1) k

/-- The time at which the attempt after `k` failed ones begins, the first of
them being the call number `start`, begun after the pause `wait` at the time
`clock`: each failed attempt takes the latency of its call and the thirty
seconds of the handler, and the pauses between attempts are those of the retry
loop. -/
def attemptStart (client : Client) : Nat → Nat → Nat → Nat → Nat
  | _, clock, wait, 0 => clock + wait
  | start, clock, wait, k + 1 =>
    attemptStart client (start + 1)
      (clock + wait + (client.LicensesList start).latency + 30 * Second) (nextWait wait) k

/-! ## Flattener: lemmas -/

theorem flattenLicense_some (l : License) : flattenLicense (some l) = .ok (mappingOf l) := rfl

theorem flattenLicenses_nil : flattenLicenses [] = .ok [] := rfl

theorem flattenLicenses_cons (r : Option License) (rs : List (Option License)) :
    flattenLicenses (r :: rs) =
      (match flattenLicense r with
       | .error p => .error p
       | .ok m =>
         match flattenLicenses rs with
         | .error p => .error p
         | .ok ms => .ok (m :: ms)) := by
  simp only [flattenLicenses, List.mapM_cons]
  cases flattenLicense r <;> try rfl
  simp only [bind, Except.bind]
  cases List.mapM flattenLicense rs <;> rfl

theorem flattenLicenses_map_some (recs : List License) :
    flattenLicenses (recs.map some) = .ok (recs.map mappingOf) := by
  induction recs with
  | nil => rfl
  | cons l ls ih => rw [List.map_cons, flattenLicenses_cons, ih]; rfl

theorem flattenLicenses_ok_iff (refs : List (Option License)) :
    (∃ out, flattenLicenses refs = .ok out) ↔ ∀ r ∈ refs, r ≠ none := by
  induction refs with
  | nil => simp [flattenLicenses_nil]
  | cons r rs ih =>
    rw [flattenLicenses_cons]
    cases r with
    | none => simp [flattenLicense]
    | some l =>
      rw [flattenLicense_some]
      constructor
      · intro h
        have hrs : ∃ out, flattenLicenses rs = .ok out := by
          cases hq : flattenLicenses rs with
          | error p => rw [hq] at h; simp at h
          | ok ms => exact ⟨ms, rfl⟩
        intro x hx
        rcases List.mem_cons.mp hx with rfl | hx
        · simp
        · exact ih.mp hrs x hx
      · intro h
        obtain ⟨ms, hms⟩ := ih.mpr (fun x hx => h x (List.mem_cons_of_mem _ hx))
        exact ⟨_, by rw [hms]⟩

/-! ## Read handler: one attempt -/

theorem reply_cases (client : Client) (n : Nat) :
    (∃ e, (client.LicensesList n).result = .error e ∧ isErrCode e StatusBadRequest = true) ∨
    (∃ e, (client.LicensesList n).result = .error e ∧ isErrCode e StatusBadRequest = false) ∨
    (∃ ls p, (client.LicensesList n).result = .ok ls ∧ flattenLicenses ls = .error p) ∨
    (∃ ls m, (client.LicensesList n).result = .ok ls ∧ flattenLicenses ls = .ok m) := by
  cases hr : (client.LicensesList n).result with
  | error e =>
    cases hb : isErrCode e StatusBadRequest
    · exact Or.inr (Or.inl ⟨e, rfl, hb⟩)
    · exact Or.inl ⟨e, rfl, hb⟩
  | ok ls =>
    cases hf : flattenLicenses ls with
    | error p => exact Or.inr (Or.inr (Or.inl ⟨ls, p, rfl, hf⟩))
    | ok m => exact Or.inr (Or.inr (Or.inr ⟨ls, m, rfl, hf⟩))

theorem isTransient_iff (client : Client) (n : Nat) :
    isTransient client n = true ↔
      ∃ e, (client.LicensesList n).result = .error e ∧ isErrCode e StatusBadRequest = false := by
  unfold isTransient
  cases hr : (client.LicensesList n).result with
  | error e => simp
  | ok ls => simp

theorem readAttempt_bad (client : Client) (s : State) (e : GoError)
    (hr : (client.LicensesList s.listLog.length).result = .error e)
    (hb : isErrCode e StatusBadRequest = true) :
    readAttempt client s =
      ⟨[callBegun s, answered client s], .ok (some (NonRetryableError e))⟩ := by
  simp only [readAttempt, hr, hb, callBegun, answered, if_true]

theorem readAttempt_transient (client : Client) (s : State) (e : GoError)
    (hr : (client.LicensesList s.listLog.length).result = .error e)
    (hb : isErrCode e StatusBadRequest = false) :
    readAttempt client s =
      ⟨[callBegun s, Sleeping (30 * Second) (answered client s),
          Sleep (30 * Second) (answered client s)], .ok (some (RetryableError e))⟩ := by
  simp [readAttempt, hr, hb, callBegun, answered]

theorem readAttempt_panic (client : Client) (s : State) (ls : List (Option License)) (p : Panic)
    (hr : (client.LicensesList s.listLog.length).result = .ok ls)
    (hf : flattenLicenses ls = .error p) :
    readAttempt client s = ⟨[callBegun s, answered client s], .error p⟩ := by
  simp only [readAttempt, hr, hf, callBegun, answered]

theorem readAttempt_ok (client : Client) (s : State) (ls : List (Option License))
    (m : List Mapping)
    (hr : (client.LicensesList s.listLog.length).result = .ok ls)
    (hf : flattenLicenses ls = .ok m) :
    ∃ s', readAttempt client s = ⟨[callBegun s, s'], .ok none⟩ ∧
      s'.d.licenses = some m ∧ s'.d.Id = some (resolvedId (answered client s)) ∧
      s'.d.idAttr = s.d.idAttr ∧
      s'.idCounter = (if (s.d.GetOk "id").2 then s.idCounter
        else (UniqueId (answered client s)).2.idCounter) ∧
      s'.sleeps = s.sleeps ∧ s'.listLog = s.clock :: s.listLog ∧
      s'.clock = s.clock + (client.LicensesList s.listLog.length).latency := by
  simp only [readAttempt, hr, hf]
  cases hid : s.d.idAttr with
  | none =>
    simp [ResourceData.GetOk, ResourceData.Set, ResourceData.SetId, UniqueId, resolvedId,
      callBegun, answered, hid]
  | some v =>
    by_cases hv : v = ""
    · simp [ResourceData.GetOk, ResourceData.Set, ResourceData.SetId, UniqueId, resolvedId,
        callBegun, answered, hid, hv]
    · simp [ResourceData.GetOk, ResourceData.Set, ResourceData.SetId, UniqueId, resolvedId,
        callBegun, answered, hid, hv]

theorem worldAt_two (a b s : State) (r : Except Panic (Option RetryError)) (t : Nat)
    (ha : a.clock ≤ t) (hb : t < b.clock) :
    Run.worldAt ⟨[a, b], r⟩ s t = { a with clock := t } := by
  have ha' : decide (a.clock ≤ t) = true := by simpa using ha
  have hb' : decide (b.clock ≤ t) = false := by simpa using hb
  simp [Run.worldAt, List.filter, ha', hb']

theorem worldAt_three_first (a b c s : State) (r : Except Panic (Option RetryError)) (t : Nat)
    (ha : a.clock ≤ t) (hb : t < b.clock) (hc : t < c.clock) :
    Run.worldAt ⟨[a, b, c], r⟩ s t = { a with clock := t } := by
  have ha' : decide (a.clock ≤ t) = true := by simpa using ha
  have hb' : decide (b.clock ≤ t) = false := by simpa using hb
  have hc' : decide (c.clock ≤ t) = false := by simpa using hc
  simp [Run.worldAt, List.filter, ha', hb', hc']

theorem worldAt_three_second (a b c s : State) (r : Except Panic (Option RetryError)) (t : Nat)
    (ha : a.clock ≤ t) (hb : b.clock ≤ t) (hc : t < c.clock) :
    Run.worldAt ⟨[a, b, c], r⟩ s t = { b with clock := t } := by
  have ha' : decide (a.clock ≤ t) = true := by simpa using ha
  have hb' : decide (b.clock ≤ t) = true := by simpa using hb
  have hc' : decide (c.clock ≤ t) = false := by simpa using hc
  simp [Run.worldAt, List.filter, ha', hb', hc']

/-- The world of a running attempt at a time before its end: the call is
logged, the buffer and the generator are as before, and the only sleep that
can have begun is the one after a transient failure. -/
theorem readAttempt_worldAt (client : Client) (s : State) (t : Nat) (h1 : s.clock ≤ t)
    (h2 : t < ((readAttempt client s).final s).clock) :
    ((readAttempt client s).worldAt s t).d = s.d ∧
      ((readAttempt client s).worldAt s t).idCounter = s.idCounter ∧
      ((readAttempt client s).worldAt s t).listLog = s.clock :: s.listLog ∧
      ((readAttempt client s).worldAt s t).clock = t ∧
      (((readAttempt client s).worldAt s t).sleeps = s.sleeps ∨
        (isTransient client s.listLog.length = true ∧
          ((readAttempt client s).worldAt s t).sleeps =
            ((answered client s).clock, 30 * Second) :: s.sleeps)) := by
  have hc : (callBegun s).clock ≤ t := h1
  rcases reply_cases client s.listLog.length with
    ⟨e, hr, hb⟩ | ⟨e, hr, hb⟩ | ⟨ls, p, hr, hf⟩ | ⟨ls, m, hr, hf⟩
  · rw [readAttempt_bad client s e hr hb] at h2 ⊢
    have h2 : t < (answered client s).clock := h2
    rw [worldAt_two _ _ _ _ _ hc h2]
    exact ⟨rfl, rfl, rfl, rfl, Or.inl rfl⟩
  · rw [readAttempt_transient client s e hr hb] at h2 ⊢
    have h2 : t < (Sleep (30 * Second) (answered client s)).clock := h2
    by_cases hy : (Sleeping (30 * Second) (answered client s)).clock ≤ t
    · rw [worldAt_three_second _ _ _ _ _ _ hc hy h2]
      exact ⟨rfl, rfl, rfl, rfl, Or.inr ⟨(isTransient_iff client _).mpr ⟨e, hr, hb⟩, rfl⟩⟩
    · rw [worldAt_three_first _ _ _ _ _ _ hc (Nat.lt_of_not_le hy) h2]
      exact ⟨rfl, rfl, rfl, rfl, Or.inl rfl⟩
  · rw [readAttempt_panic client s ls p hr hf] at h2 ⊢
    have h2 : t < (answered client s).clock := h2
    rw [worldAt_two _ _ _ _ _ hc h2]
    exact ⟨rfl, rfl, rfl, rfl, Or.inl rfl⟩
  · obtain ⟨s', hs', -⟩ := readAttempt_ok client s ls m hr hf
    rw [hs'] at h2 ⊢
    have h2 : t < s'.clock := h2
    rw [worldAt_two _ _ _ _ _ hc h2]
    exact ⟨rfl, rfl, rfl, rfl, Or.inl rfl⟩

/-! ## Read handler: the retry loop -/

theorem retryLoop_elapsed (dl gr : Nat) (f : RetryFunc) (fuel wait : Nat)
    (last : Option GoError) (s : State) (h : dl ≤ s.clock + wait) :
    retryLoop dl gr f (fuel + 1) wait last s =
      some ⟨.returned (some (last.getD timeoutError)), { s with clock := max s.clock dl }, none,
        { s with clock := max s.clock dl }⟩ := by
  simp [retryLoop, h]

theorem retryLoop_late (dl gr : Nat) (f : RetryFunc) (fuel wait : Nat)
    (last : Option GoError) (s : State) (h : s.clock + wait < dl)
    (hl : dl + gr < ((f (waited wait s)).final (waited wait s)).clock) :
    retryLoop dl gr f (fuel + 1) wait last s =
      some ⟨.returned (some (last.getD timeoutError)),
        (f (waited wait s)).worldAt (waited wait s) (dl + gr),
        some (f (waited wait s)).result, (f (waited wait s)).final (waited wait s)⟩ := by
  have hl' : dl + gr <
      ((f { s with clock := s.clock + wait }).final { s with clock := s.clock + wait }).clock := hl
  simp [retryLoop, Nat.not_le.mpr h, hl', waited]

theorem retryLoop_intime (dl gr : Nat) (f : RetryFunc) (fuel wait : Nat)
    (last : Option GoError) (s : State) (h : s.clock + wait < dl)
    (hl : ((f (waited wait s)).final (waited wait s)).clock ≤ dl + gr) :
    retryLoop dl gr f (fuel + 1) wait last s =
      (match (f (waited wait s)).result with
       | .error p => some ⟨.panicked p, (f (waited wait s)).final (waited wait s), none,
           (f (waited wait s)).final (waited wait s)⟩
       | .ok none => some ⟨.returned none, (f (waited wait s)).final (waited wait s), none,
           (f (waited wait s)).final (waited wait s)⟩
       | .ok (some rerr) =>
         if rerr.Retryable then
           retryLoop dl gr f fuel (nextWait wait) (some rerr.Err)
             ((f (waited wait s)).final (waited wait s))
         else some ⟨.returned (some rerr.Err), (f (waited wait s)).final (waited wait s), none,
           (f (waited wait s)).final (waited wait s)⟩) := by
  have hl' : ¬ dl + gr <
      ((f { s with clock := s.clock + wait }).final { s with clock := s.clock + wait }).clock :=
    Nat.not_lt.mpr hl
  simp only [retryLoop, Nat.not_le.mpr h, hl', waited, if_false]

theorem retryLoop_bad (client : Client) (dl gr fuel wait : Nat) (last : Option GoError)
    (s : State) (e : GoError) (h : s.clock + wait < dl)
    (hr : (client.LicensesList s.listLog.length).result = .error e)
    (hb : isErrCode e StatusBadRequest = true)
    (hin : (answered client (waited wait s)).clock ≤ dl + gr) :
    retryLoop dl gr (readAttempt client) (fuel + 1) wait last s =
      some ⟨.returned (some e), answered client (waited wait s), none,
        answered client (waited wait s)⟩ := by
  have hrun := readAttempt_bad client (waited wait s) e hr hb
  rw [retryLoop_intime dl gr _ fuel wait last s h (by rw [hrun]; exact hin), hrun]
  rfl

theorem retryLoop_transient (client : Client) (dl gr fuel wait : Nat) (last : Option GoError)
    (s : State) (e : GoError) (h : s.clock + wait < dl)
    (hr : (client.LicensesList s.listLog.length).result = .error e)
    (hb : isErrCode e StatusBadRequest = false)
    (hin : (Sleep (30 * Second) (answered client (waited wait s))).clock ≤ dl + gr) :
    retryLoop dl gr (readAttempt client) (fuel + 1) wait last s =
      retryLoop dl gr (readAttempt client) fuel (nextWait wait) (some e)
        (Sleep (30 * Second) (answered client (waited wait s))) := by
  have hrun := readAttempt_transient client (waited wait s) e hr hb
  rw [retryLoop_intime dl gr _ fuel wait last s h (by rw [hrun]; exact hin), hrun]
  rfl

theorem retryLoop_panic (client : Client) (dl gr fuel wait : Nat) (last : Option GoError)
    (s : State) (ls : List (Option License)) (p : Panic) (h : s.clock + wait < dl)
    (hr : (client.LicensesList s.listLog.length).result = .ok ls)
    (hf : flattenLicenses ls = .error p)
    (hin : (answered client (waited wait s)).clock ≤ dl + gr) :
    retryLoop dl gr (readAttempt client) (fuel + 1) wait last s =
      some ⟨.panicked p, answered client (waited wait s), none,
        answered client (waited wait s)⟩ := by
  have hrun := readAttempt_panic client (waited wait s) ls p hr hf
  rw [retryLoop_intime dl gr _ fuel wait last s h (by rw [hrun]; exact hin), hrun]
  rfl

theorem retryLoop_ok (client : Client) (dl gr fuel wait : Nat) (last : Option GoError)
    (s : State) (ls : List (Option License)) (m : List Mapping) (h : s.clock + wait < dl)
    (hr : (client.LicensesList s.listLog.length).result = .ok ls)
    (hf : flattenLicenses ls = .ok m)
    (hin : (answered client (waited wait s)).clock ≤ dl + gr) :
    ∃ s', retryLoop dl gr (readAttempt client) (fuel + 1) wait last s =
        some ⟨.returned none, s', none, s'⟩ ∧
      s'.d.licenses = some m ∧ s'.d.Id = some (resolvedId (answered client (waited wait s))) ∧
      s'.d.idAttr = s.d.idAttr ∧
      s'.idCounter = (if (s.d.GetOk "id").2 then s.idCounter
        else (UniqueId (answered client (waited wait s))).2.idCounter) ∧
      s'.sleeps = s.sleeps ∧ s'.listLog = (s.clock + wait) :: s.listLog ∧
      s'.clock = (answered client (waited wait s)).clock := by
  obtain ⟨s', hrun, h1, h2, h3, h4, h5, h6, h7⟩ := readAttempt_ok client (waited wait s) ls m hr hf
  refine ⟨s', ?_, h1, h2, h3, h4, h5, h6, h7⟩
  have hfin : ((readAttempt client (waited wait s)).final (waited wait s)) = s' := by
    rw [hrun]; rfl
  rw [retryLoop_intime dl gr _ fuel wait last s h (by rw [hfin, h7]; exact hin), hrun]
  rfl

/-- The loop gives up on a call that is still running when the grace period
is over: it returns the last error, nothing has been written by then, and the
call goes on to its end. -/
theorem retryLoop_gaveUp (client : Client) (dl gr fuel wait : Nat) (last : Option GoError)
    (s : State) (h : s.clock + wait < dl)
    (hl : dl + gr < ((readAttempt client (waited wait s)).final (waited wait s)).clock) :
    ∃ w res fin, retryLoop dl gr (readAttempt client) (fuel + 1) wait last s =
        some ⟨.returned (some (last.getD timeoutError)), w, some res, fin⟩ ∧
      w.d = s.d ∧ w.idCounter = s.idCounter ∧ w.listLog = (s.clock + wait) :: s.listLog ∧
      w.clock = dl + gr ∧ fin.listLog = (s.clock + wait) :: s.listLog ∧ dl + gr < fin.clock ∧
      ((isTransient client s.listLog.length = true ∧ fin.d = s.d ∧
          fin.sleeps = ((answered client (waited wait s)).clock, 30 * Second) :: s.sleeps ∧
          (w.sleeps = s.sleeps ∨ w.sleeps = fin.sleeps)) ∨
        (isTransient client s.listLog.length = false ∧ w.sleeps = s.sleeps ∧
          fin.sleeps = s.sleeps ∧
          (fin.d = s.d ∨
            (res = .ok none ∧
              ∃ ls m, (client.LicensesList s.listLog.length).result = .ok ls ∧
                flattenLicenses ls = .ok m ∧ fin.d.licenses = some m ∧
                ∃ u, fin.d.Id = some u)))) := by
  obtain ⟨w1, w2, w3, w4, w5⟩ :=
    readAttempt_worldAt client (waited wait s) (dl + gr) (by simp only [waited]; omega) hl
  refine ⟨_, _, _, retryLoop_late dl gr _ fuel wait last s h hl, w1, w2, w3, w4, ?_, hl, ?_⟩
  · rcases reply_cases client s.listLog.length with
      ⟨e, hr, hb⟩ | ⟨e, hr, hb⟩ | ⟨ls, p, hr, hf⟩ | ⟨ls, m, hr, hf⟩
    · rw [readAttempt_bad client (waited wait s) e hr hb]; rfl
    · rw [readAttempt_transient client (waited wait s) e hr hb]; rfl
    · rw [readAttempt_panic client (waited wait s) ls p hr hf]; rfl
    · obtain ⟨s', hs', -, -, -, -, -, h6, -⟩ := readAttempt_ok client (waited wait s) ls m hr hf
      rw [hs']; exact h6
  · rcases reply_cases client s.listLog.length with
      ⟨e, hr, hb⟩ | ⟨e, hr, hb⟩ | ⟨ls, p, hr, hf⟩ | ⟨ls, m, hr, hf⟩
    · have hnt : isTransient client s.listLog.length = false := by simp [isTransient, hr, hb]
      have hnt' : isTransient client (waited wait s).listLog.length = false := hnt
      refine Or.inr ⟨hnt, ?_, ?_, Or.inl ?_⟩
      · rcases w5 with h5 | ⟨h5, -⟩
        · exact h5
        · rw [hnt'] at h5; cases h5
      · rw [readAttempt_bad client (waited wait s) e hr hb]; rfl
      · rw [readAttempt_bad client (waited wait s) e hr hb]; rfl
    · have ht : isTransient client s.listLog.length = true :=
        (isTransient_iff client _).mpr ⟨e, hr, hb⟩
      refine Or.inl ⟨ht, ?_, ?_, ?_⟩
      · rw [readAttempt_transient client (waited wait s) e hr hb]; rfl
      · rw [readAttempt_transient client (waited wait s) e hr hb]; rfl
      · rcases w5 with h5 | ⟨-, h5⟩
        · exact Or.inl h5
        · refine Or.inr ?_
          rw [h5, readAttempt_transient client (waited wait s) e hr hb]; rfl
    · have hnt : isTransient client s.listLog.length = false := by simp [isTransient, hr]
      have hnt' : isTransient client (waited wait s).listLog.length = false := hnt
      refine Or.inr ⟨hnt, ?_, ?_, Or.inl ?_⟩
      · rcases w5 with h5 | ⟨h5, -⟩
        · exact h5
        · rw [hnt'] at h5; cases h5
      · rw [readAttempt_panic client (waited wait s) ls p hr hf]; rfl
      · rw [readAttempt_panic client (waited wait s) ls p hr hf]; rfl
    · have hnt : isTransient client s.listLog.length = false := by simp [isTransient, hr]
      have hnt' : isTransient client (waited wait s).listLog.length = false := hnt
      obtain ⟨s', hs', h1, h2, -, -, h5, -, -⟩ :=
        readAttempt_ok client (waited wait s) ls m hr hf
      refine Or.inr ⟨hnt, ?_, ?_, Or.inr ⟨?_, ls, m, hr, hf, ?_,
        resolvedId (answered client (waited wait s)), ?_⟩⟩
      · rcases w5 with h5 | ⟨h5, -⟩
        · exact h5
        · rw [hnt'] at h5; cases h5
      · rw [hs']; exact h5
      · rw [hs']
      · rw [hs']; exact h1
      · rw [hs']; exact h2

/-- One turn of the loop that finds the deadline not yet reached: the attempt
ends in time with a bad request, a panic or success, or it ends in time with a
transient failure and the loop goes on, or the loop gives up on it. -/
theorem retryLoop_step (client : Client) (dl gr fuel wait : Nat) (last : Option GoError)
    (s : State) (h : s.clock + wait < dl) :
    (∃ e, (client.LicensesList s.listLog.length).result = .error e ∧
        isErrCode e StatusBadRequest = true ∧
        retryLoop dl gr (readAttempt client) (fuel + 1) wait last s =
          some ⟨.returned (some e), answered client (waited wait s), none,
            answered client (waited wait s)⟩) ∨
      (∃ ls p, (client.LicensesList s.listLog.length).result = .ok ls ∧
        flattenLicenses ls = .error p ∧
        retryLoop dl gr (readAttempt client) (fuel + 1) wait last s =
          some ⟨.panicked p, answered client (waited wait s), none,
            answered client (waited wait s)⟩) ∨
      (∃ ls m s', (client.LicensesList s.listLog.length).result = .ok ls ∧
        flattenLicenses ls = .ok m ∧
        retryLoop dl gr (readAttempt client) (fuel + 1) wait last s =
          some ⟨.returned none, s', none, s'⟩ ∧
        s'.d.licenses = some m ∧
        s'.d.Id = some (resolvedId (answered client (waited wait s))) ∧
        s'.d.idAttr = s.d.idAttr ∧
        s'.idCounter = (if (s.d.GetOk "id").2 then s.idCounter
          else (UniqueId (answered client (waited wait s))).2.idCounter) ∧
        s'.sleeps = s.sleeps ∧ s'.listLog = (s.clock + wait) :: s.listLog ∧
        s'.clock = (answered client (waited wait s)).clock) ∨
      (∃ e, (client.LicensesList s.listLog.length).result = .error e ∧
        isErrCode e StatusBadRequest = false ∧
        (Sleep (30 * Second) (answered client (waited wait s))).clock ≤ dl + gr ∧
        retryLoop dl gr (readAttempt client) (fuel + 1) wait last s =
          retryLoop dl gr (readAttempt client) fuel (nextWait wait) (some e)
            (Sleep (30 * Second) (answered client (waited wait s)))) ∨
      (∃ w res fin, retryLoop dl gr (readAttempt client) (fuel + 1) wait last s =
          some ⟨.returned (some (last.getD timeoutError)), w, some res, fin⟩ ∧
        w.d = s.d ∧ w.idCounter = s.idCounter ∧ w.listLog = (s.clock + wait) :: s.listLog ∧
        w.clock = dl + gr ∧ fin.listLog = (s.clock + wait) :: s.listLog ∧ dl + gr < fin.clock ∧
        ((isTransient client s.listLog.length = true ∧ fin.d = s.d ∧
            fin.sleeps = ((answered client (waited wait s)).clock, 30 * Second) :: s.sleeps ∧
            (w.sleeps = s.sleeps ∨ w.sleeps = fin.sleeps)) ∨
          (isTransient client s.listLog.length = false ∧ w.sleeps = s.sleeps ∧
            fin.sleeps = s.sleeps ∧
            (fin.d = s.d ∨
              (res = .ok none ∧
                ∃ ls m, (client.LicensesList s.listLog.length).result = .ok ls ∧
                  flattenLicenses ls = .ok m ∧ fin.d.licenses = some m ∧
                  ∃ u, fin.d.Id = some u))))) := by
  by_cases hl : dl + gr < ((readAttempt client (waited wait s)).final (waited wait s)).clock
  · exact Or.inr (Or.inr (Or.inr (Or.inr (retryLoop_gaveUp client dl gr fuel wait last s h hl))))
  · have hin := Nat.le_of_not_lt hl
    rcases reply_cases client s.listLog.length with
      ⟨e, hr, hb⟩ | ⟨e, hr, hb⟩ | ⟨ls, p, hr, hf⟩ | ⟨ls, m, hr, hf⟩
    · rw [readAttempt_bad client (waited wait s) e hr hb] at hin
      exact Or.inl ⟨e, hr, hb, retryLoop_bad client dl gr fuel wait last s e h hr hb hin⟩
    · rw [readAttempt_transient client (waited wait s) e hr hb] at hin
      exact Or.inr (Or.inr (Or.inr (Or.inl ⟨e, hr, hb, hin,
        retryLoop_transient client dl gr fuel wait last s e h hr hb hin⟩)))
    · rw [readAttempt_panic client (waited wait s) ls p hr hf] at hin
      exact Or.inr (Or.inl ⟨ls, p, hr, hf,
        retryLoop_panic client dl gr fuel wait last s ls p h hr hf hin⟩)
    · obtain ⟨s1, hs1, -, -, -, -, -, -, h7⟩ := readAttempt_ok client (waited wait s) ls m hr hf
      rw [hs1] at hin
      have hin' : (answered client (waited wait s)).clock ≤ dl + gr := by
        have : s1.clock ≤ dl + gr := hin
        rw [h7] at this; exact this
      obtain ⟨s', hs', rest⟩ := retryLoop_ok client dl gr fuel wait last s ls m h hr hf hin'
      exact Or.inr (Or.inr (Or.inl ⟨ls, m, s', hr, hf, hs', rest⟩))

theorem sleep_clock (client : Client) (wait : Nat) (s : State) :
    (Sleep (30 * Second) (answered client (waited wait s))).clock =
      s.clock + wait + (client.LicensesList s.listLog.length).latency + 30 * Second := rfl

/-- Every failed attempt lasts thirty seconds or more, so the loop ends within
the fuel that covers the deadline. -/
theorem retryLoop_total (client : Client) (dl gr : Nat) :
    ∀ (k fuel wait : Nat) (last : Option GoError) (s : State), k < fuel →
      dl ≤ s.clock + wait + k * (30 * Second) →
      ∃ r, retryLoop dl gr (readAttempt client) fuel wait last s = some r := by
  intro k
  induction k with
  | zero =>
    intro fuel wait last s hk hdl
    obtain ⟨fuel, rfl⟩ : ∃ j, fuel = j + 1 := ⟨fuel - 1, by omega⟩
    exact ⟨_, retryLoop_elapsed dl gr _ fuel wait last s (by omega)⟩
  | succ k ih =>
    intro fuel wait last s hk hdl
    obtain ⟨fuel, rfl⟩ : ∃ j, fuel = j + 1 := ⟨fuel - 1, by omega⟩
    by_cases h : dl ≤ s.clock + wait
    · exact ⟨_, retryLoop_elapsed dl gr _ fuel wait last s h⟩
    · rcases retryLoop_step client dl gr fuel wait last s (Nat.lt_of_not_le h) with
        ⟨e, -, -, heq⟩ | ⟨ls, p, -, -, heq⟩ | ⟨ls, m, s', -, -, heq, -⟩ |
        ⟨e, -, -, -, heq⟩ | ⟨w, res, fin, heq, -⟩
      · exact ⟨_, heq⟩
      · exact ⟨_, heq⟩
      · exact ⟨_, heq⟩
      · rw [heq]
        apply ih fuel _ (some e) _ (by omega)
        rw [sleep_clock]
        have : (k + 1) * (30 * Second) = k * (30 * Second) + 30 * Second := by ring
        omega
      · exact ⟨_, heq⟩

/-- What a finished loop has logged. Once the last call has ended, the new
`List` calls all began before the deadline and there is one new sleep of
thirty seconds for each transient failure among them; at the return all the
calls are logged and all these sleeps have begun, except possibly the one of a
call that is still running. -/
theorem retryLoop_log (client : Client) (dl gr : Nat) :
    ∀ (fuel wait : Nat) (last : Option GoError) (s : State) (r : RetryResult),
      retryLoop dl gr (readAttempt client) fuel wait last s = some r →
      ∃ (newCalls : List Nat) (newSleeps : List (Nat × Nat)),
        r.final.listLog = newCalls ++ s.listLog ∧ (∀ c ∈ newCalls, c < dl) ∧
        r.final.sleeps = newSleeps ++ s.sleeps ∧ (∀ p ∈ newSleeps, p.2 = 30 * Second) ∧
        newSleeps.length = transientFailures client s.listLog.length newCalls.length ∧
        r.atReturn.listLog = r.final.listLog ∧
        (r.atReturn.sleeps = r.final.sleeps ∨
          (r.late ≠ none ∧ ∃ p, r.final.sleeps = p :: r.atReturn.sleeps)) ∧
        (r.late = none → r.atReturn = r.final) := by
  intro fuel
  induction fuel with
  | zero => intro wait last s r h; simp [retryLoop] at h
  | succ fuel ih =>
    intro wait last s r h
    by_cases hd : dl ≤ s.clock + wait
    · rw [retryLoop_elapsed dl gr _ fuel wait last s hd] at h
      obtain rfl := Option.some.inj h
      exact ⟨[], [], rfl, by simp, rfl, by simp, rfl, rfl, Or.inl rfl, fun _ => rfl⟩
    · have hlt : s.clock + wait < dl := Nat.lt_of_not_le hd
      have hone : ∀ b : Bool, b = false →
          (0 : Nat) = (if b then 1 else 0) + transientFailures client (s.listLog.length + 1) 0 := by
        intro b hb; subst hb; rfl
      have htwo : ∀ b : Bool, b = true →
          (1 : Nat) = (if b then 1 else 0) + transientFailures client (s.listLog.length + 1) 0 := by
        intro b hb; subst hb; rfl
      rcases retryLoop_step client dl gr fuel wait last s hlt with
        ⟨e, hr, hb, heq⟩ | ⟨ls, p, hr, hf, heq⟩ | ⟨ls, m, s', hr, hf, heq, -, -, -, -, hsl, hlog, -⟩ |
        ⟨e, hr, hb, -, heq⟩ | ⟨w, res, fin, heq, -, -, hwl, -, hfl, -, hcase⟩
      · rw [heq] at h
        obtain rfl := Option.some.inj h
        refine ⟨[s.clock + wait], [], rfl, by simpa using hlt, rfl, by simp, ?_, rfl, Or.inl rfl,
          fun _ => rfl⟩
        exact hone _ (by simp [isTransient, hr, hb])
      · rw [heq] at h
        obtain rfl := Option.some.inj h
        refine ⟨[s.clock + wait], [], rfl, by simpa using hlt, rfl, by simp, ?_, rfl, Or.inl rfl,
          fun _ => rfl⟩
        exact hone _ (by simp [isTransient, hr])
      · rw [heq] at h
        obtain rfl := Option.some.inj h
        refine ⟨[s.clock + wait], [], by simp [hlog], by simpa using hlt, by simp [hsl], by simp, ?_,
          rfl, Or.inl rfl, fun _ => rfl⟩
        exact hone _ (by simp [isTransient, hr])
      · rw [heq] at h
        obtain ⟨nc, ns, h1, h2, h3, h4, h5, h6, h7, h8⟩ := ih _ _ _ _ h
        refine ⟨nc ++ [s.clock + wait],
          ns ++ [((answered client (waited wait s)).clock, 30 * Second)], ?_, ?_, ?_, ?_, ?_,
          h6, h7, h8⟩
        · rw [h1]; simp [Sleep, Sleeping, answered, waited]
        · intro c hc
          rcases List.mem_append.mp hc with hc | hc
          · exact h2 c hc
          · simpa [List.mem_singleton.mp hc] using hlt
        · rw [h3]; simp [Sleep, Sleeping, answered, waited]
        · intro q hq
          rcases List.mem_append.mp hq with hq | hq
          · exact h4 q hq
          · rw [List.mem_singleton.mp hq]
        · have ht : isTransient client s.listLog.length = true :=
            (isTransient_iff client _).mpr ⟨e, hr, hb⟩
          have hl : (Sleep (30 * Second) (answered client (waited wait s))).listLog.length =
              s.listLog.length + 1 := by simp [Sleep, Sleeping, answered, waited]
          rw [hl] at h5
          simp only [List.length_append, List.length_singleton, transientFailures, ht, if_true, h5]
          omega
      · rw [heq] at h
        obtain rfl := Option.some.inj h
        rcases hcase with ⟨ht, -, hfs, hws⟩ | ⟨hnt, hws, hfs, -⟩
        · refine ⟨[s.clock + wait], [((answered client (waited wait s)).clock, 30 * Second)],
            hfl, by simpa using hlt, hfs, by simp, htwo _ ht, by rw [hwl, hfl], ?_,
            fun hnone => by cases hnone⟩
          rcases hws with hws | hws
          · exact Or.inr ⟨by simp, _, by rw [hfs, hws]⟩
          · exact Or.inl hws
        · exact ⟨[s.clock + wait], [], hfl, by simpa using hlt, hfs, by simp, hone _ hnt,
            by rw [hwl, hfl], Or.inl (by rw [hws, hfs]), fun hnone => by cases hnone⟩

/-- What a finished loop has done to the result buffer. After success the
flattened answer of the last call and the resolved identifier are stored. In
every other case the buffer is as before when the loop returns; only a call
that was still running then and goes on to succeed writes to it later. -/
theorem retryLoop_buffer (client : Client) (dl gr : Nat) :
    ∀ (fuel wait : Nat) (last : Option GoError) (s : State) (r : RetryResult),
      retryLoop dl gr (readAttempt client) fuel wait last s = some r →
      (r.out = .returned none ∧ r.late = none ∧ r.final = r.atReturn ∧
        s.listLog.length < r.atReturn.listLog.length ∧
        (∃ ls m, (client.LicensesList (r.atReturn.listLog.length - 1)).result = .ok ls ∧
          flattenLicenses ls = .ok m ∧ r.atReturn.d.licenses = some m) ∧
        (∃ st, st.d = s.d ∧ st.idCounter = s.idCounter ∧ st.clock = r.atReturn.clock ∧
          r.atReturn.d.Id = some (resolvedId st) ∧
          r.atReturn.idCounter = (if (s.d.GetOk "id").2 then s.idCounter
            else (UniqueId st).2.idCounter)) ∧
        r.atReturn.d.idAttr = s.d.idAttr) ∨
      (r.out ≠ .returned none ∧ r.atReturn.d = s.d ∧
        (r.final.d = s.d ∨
          (r.late = some (.ok none) ∧
            ∃ ls m, (client.LicensesList (r.final.listLog.length - 1)).result = .ok ls ∧
              flattenLicenses ls = .ok m ∧ r.final.d.licenses = some m ∧
              ∃ u, r.final.d.Id = some u)) ∧
        (∀ p, r.out = .panicked p →
          ∃ n ls, (client.LicensesList n).result = .ok ls ∧ flattenLicenses ls = .error p)) := by
  intro fuel
  induction fuel with
  | zero => intro wait last s r h; simp [retryLoop] at h
  | succ fuel ih =>
    intro wait last s r h
    by_cases hd : dl ≤ s.clock + wait
    · rw [retryLoop_elapsed dl gr _ fuel wait last s hd] at h
      obtain rfl := Option.some.inj h
      exact Or.inr ⟨by simp, rfl, Or.inl rfl, fun p hp => by cases hp⟩
    · have hlt : s.clock + wait < dl := Nat.lt_of_not_le hd
      rcases retryLoop_step client dl gr fuel wait last s hlt with
        ⟨e, hr, hb, heq⟩ | ⟨ls, p, hr, hf, heq⟩ |
        ⟨ls, m, s', hr, hf, heq, hlic, hid, hattr, hcnt, -, hlog, hclk⟩ |
        ⟨e, hr, hb, -, heq⟩ | ⟨w, res, fin, heq, hwd, -, -, -, hfl, -, hcase⟩
      · rw [heq] at h
        obtain rfl := Option.some.inj h
        exact Or.inr ⟨by simp, rfl, Or.inl rfl, fun p hp => by cases hp⟩
      · rw [heq] at h
        obtain rfl := Option.some.inj h
        refine Or.inr ⟨by simp, rfl, Or.inl rfl, fun q hq => ?_⟩
        injection hq with hq
        subst hq
        exact ⟨_, ls, hr, hf⟩
      · rw [heq] at h
        obtain rfl := Option.some.inj h
        refine Or.inl ⟨rfl, rfl, rfl, by simp [hlog], ⟨ls, m, ?_, hf, hlic⟩,
          ⟨answered client (waited wait s), rfl, rfl, hclk.symm, hid, hcnt⟩, hattr⟩
        simpa [hlog] using hr
      · rw [heq] at h
        have hl : (Sleep (30 * Second) (answered client (waited wait s))).listLog.length =
            s.listLog.length + 1 := by simp [Sleep, Sleeping, answered, waited]
        have hdd : (Sleep (30 * Second) (answered client (waited wait s))).d = s.d := rfl
        have hcc : (Sleep (30 * Second) (answered client (waited wait s))).idCounter =
            s.idCounter := rfl
        rcases ih _ _ _ _ h with
          ⟨h1, h2, h3, h4, h5, ⟨st, h6, h7, h8, h9, h10⟩, h11⟩ | ⟨h1, h2, h3, h4⟩
        · refine Or.inl ⟨h1, h2, h3, by omega, h5,
            ⟨st, h6.trans hdd, h7.trans hcc, h8, h9, ?_⟩, by rw [h11, hdd]⟩
          rw [h10, hdd, hcc]
        · refine Or.inr ⟨h1, h2.trans hdd, ?_, h4⟩
          rcases h3 with h3 | h3
          · exact Or.inl (h3.trans hdd)
          · exact Or.inr h3
      · rw [heq] at h
        obtain rfl := Option.some.inj h
        refine Or.inr ⟨by simp, hwd, ?_, fun p hp => by cases hp⟩
        rcases hcase with ⟨-, hfd, -, -⟩ | ⟨-, -, -, hfd | ⟨hres, ls, m, hr, hf, hlic, hid⟩⟩
        · exact Or.inl hfd
        · exact Or.inl hfd
        · refine Or.inr ⟨by rw [hres], ls, m, ?_, hf, hlic, hid⟩
          simpa [hfl] using hr

/-- When every answer from number `n0` on is a transient failure, a finished
loop returns an error between the deadline and the end of the grace period,
with the buffer untouched: the error of the last call when no call is
running at the return, that of the call before it otherwise. -/
theorem retryLoop_all_transient (client : Client) (dl gr n0 : Nat)
    (hall : ∀ n, n0 ≤ n → isTransient client n = true) :
    ∀ (fuel wait : Nat) (last : Option GoError) (s : State) (r : RetryResult),
      n0 ≤ s.listLog.length → s.clock ≤ dl + gr →
      retryLoop dl gr (readAttempt client) fuel wait last s = some r →
      ∃ e, r.out = .returned (some e) ∧ dl ≤ r.atReturn.clock ∧ r.atReturn.clock ≤ dl + gr ∧
        r.atReturn.d = s.d ∧ r.final.d = s.d ∧
        ((r.late = none ∧
            ((r.final.listLog = s.listLog ∧ e = last.getD timeoutError) ∨
              (s.listLog.length < r.final.listLog.length ∧
                (client.LicensesList (r.final.listLog.length - 1)).result = .error e))) ∨
          (r.late ≠ none ∧
            ((r.final.listLog.length = s.listLog.length + 1 ∧ e = last.getD timeoutError) ∨
              (s.listLog.length + 1 < r.final.listLog.length ∧
                (client.LicensesList (r.final.listLog.length - 2)).result = .error e)))) := by
  intro fuel
  induction fuel with
  | zero => intro wait last s r _ _ h; simp [retryLoop] at h
  | succ fuel ih =>
    intro wait last s r hn hs h
    have ht := hall _ hn
    obtain ⟨e0, hr0, hb0⟩ := (isTransient_iff client _).mp ht
    by_cases hd : dl ≤ s.clock + wait
    · rw [retryLoop_elapsed dl gr _ fuel wait last s hd] at h
      obtain rfl := Option.some.inj h
      refine ⟨_, rfl, ?_, ?_, rfl, rfl, Or.inl ⟨rfl, Or.inl ⟨rfl, rfl⟩⟩⟩
      · exact Nat.le_max_right _ _
      · exact Nat.max_le.mpr ⟨hs, Nat.le_add_right _ _⟩
    · have hlt : s.clock + wait < dl := Nat.lt_of_not_le hd
      rcases retryLoop_step client dl gr fuel wait last s hlt with
        ⟨e, hr, hb, heq⟩ | ⟨ls, p, hr, hf, heq⟩ | ⟨ls, m, s', hr, hf, heq, -⟩ |
        ⟨e, hr, hb, hin, heq⟩ | ⟨w, res, fin, heq, hwd, -, -, hwc, hfl, -, hcase⟩
      · rw [hr0] at hr; injection hr with hr; subst hr; rw [hb0] at hb; cases hb
      · rw [hr0] at hr; cases hr
      · rw [hr0] at hr; cases hr
      · rw [heq] at h
        have hl : (Sleep (30 * Second) (answered client (waited wait s))).listLog.length =
            s.listLog.length + 1 := by simp [Sleep, Sleeping, answered, waited]
        have hdd : (Sleep (30 * Second) (answered client (waited wait s))).d = s.d := rfl
        obtain ⟨e1, h1, h2, h3, h4, h5, h6⟩ := ih _ _ _ _ (by rw [hl]; omega) hin h
        refine ⟨e1, h1, h2, h3, h4.trans hdd, h5.trans hdd, ?_⟩
        rcases h6 with ⟨hnone, hc | ⟨hc1, hc2⟩⟩ | ⟨hsome, ⟨hc1, hc2⟩ | ⟨hc1, hc2⟩⟩
        · obtain ⟨hc1, hc2⟩ := hc
          have h7 : r.final.listLog.length = s.listLog.length + 1 := by rw [hc1, hl]
          refine Or.inl ⟨hnone, Or.inr ⟨by omega, ?_⟩⟩
          rw [h7, Nat.add_sub_cancel, hr, hc2]; rfl
        · exact Or.inl ⟨hnone, Or.inr ⟨by omega, hc2⟩⟩
        · refine Or.inr ⟨hsome, Or.inr ⟨by omega, ?_⟩⟩
          rw [hc1, hl, show s.listLog.length + 1 + 1 - 2 = s.listLog.length by omega, hr, hc2]
          rfl
        · exact Or.inr ⟨hsome, Or.inr ⟨by omega, hc2⟩⟩
      · rw [heq] at h
        obtain rfl := Option.some.inj h
        have hfd : fin.d = s.d := by
          rcases hcase with ⟨-, hfd, -, -⟩ | ⟨hnt, -⟩
          · exact hfd
          · rw [ht] at hnt; cases hnt
        refine ⟨_, rfl, ?_, ?_, hwd, hfd, Or.inr ⟨by simp, Or.inl ⟨?_, rfl⟩⟩⟩
        · show dl ≤ w.clock
          omega
        · show w.clock ≤ dl + gr
          omega
        · show fin.listLog.length = s.listLog.length + 1
          rw [hfl]; rfl

theorem le_attemptStart (client : Client) :
    ∀ (k start clock wait : Nat), clock + wait ≤ attemptStart client start clock wait k := by
  intro k
  induction k with
  | zero => intro start clock wait; exact Nat.le_refl _
  | succ k ih =>
    intro start clock wait
    have := ih (start + 1) (clock + wait + (client.LicensesList start).latency + 30 * Second)
      (nextWait wait)
    simp only [attemptStart]
    omega

/-- After `k` transient failures, an answer `ls` that is there before the
deadline ends the loop with success and the flattening of `ls` in the
buffer. -/
theorem retryLoop_transient_then_ok (client : Client) (dl gr : Nat)
    (ls : List (Option License)) (m : List Mapping) (hf : flattenLicenses ls = .ok m) :
    ∀ (k fuel wait : Nat) (last : Option GoError) (s : State), k < fuel →
      (∀ i, i < k → isTransient client (s.listLog.length + i) = true) →
      (client.LicensesList (s.listLog.length + k)).result = .ok ls →
      attemptStart client s.listLog.length s.clock wait k +
        (client.LicensesList (s.listLog.length + k)).latency < dl →
      ∃ r, retryLoop dl gr (readAttempt client) fuel wait last s = some r ∧
        r.out = .returned none ∧ r.late = none ∧ r.final = r.atReturn ∧
        r.atReturn.d.licenses = some m ∧
        r.atReturn.listLog.length = s.listLog.length + k + 1 ∧
        r.atReturn.sleeps.length = s.sleeps.length + k ∧ r.atReturn.clock < dl := by
  intro k
  induction k with
  | zero =>
    intro fuel wait last s hk _ hr hc
    obtain ⟨fuel, rfl⟩ : ∃ j, fuel = j + 1 := ⟨fuel - 1, by omega⟩
    have hc' : s.clock + wait + (client.LicensesList s.listLog.length).latency < dl := hc
    obtain ⟨s', hs', hlic, -, -, -, hsl, hlog, hclk⟩ :=
      retryLoop_ok client dl gr fuel wait last s ls m (by omega) hr hf
        (by show s.clock + wait + (client.LicensesList s.listLog.length).latency ≤ dl + gr
            omega)
    refine ⟨_, hs', rfl, rfl, rfl, hlic, by simp [hlog], by simp [hsl], ?_⟩
    show s'.clock < dl
    rw [hclk]
    exact hc'
  | succ k ih =>
    intro fuel wait last s hk ht hr hc
    obtain ⟨fuel, rfl⟩ : ∃ j, fuel = j + 1 := ⟨fuel - 1, by omega⟩
    obtain ⟨e, hre, hb⟩ := (isTransient_iff client _).mp (ht 0 (by omega))
    have hmono := le_attemptStart client k (s.listLog.length + 1)
      (s.clock + wait + (client.LicensesList s.listLog.length).latency + 30 * Second)
      (nextWait wait)
    have hc' : attemptStart client (s.listLog.length + 1)
        (s.clock + wait + (client.LicensesList s.listLog.length).latency + 30 * Second)
        (nextWait wait) k + (client.LicensesList (s.listLog.length + (k + 1))).latency < dl := hc
    have hl : (Sleep (30 * Second) (answered client (waited wait s))).listLog.length =
        s.listLog.length + 1 := by simp [Sleep, Sleeping, answered, waited]
    have hs : (Sleep (30 * Second) (answered client (waited wait s))).sleeps.length =
        s.sleeps.length + 1 := by simp [Sleep, Sleeping, answered, waited]
    rw [retryLoop_transient client dl gr fuel wait last s e (by omega) (by simpa using hre) hb
      (by rw [sleep_clock]; omega)]
    obtain ⟨r, hrun, h1, h2, h3, h4, h5, h6, h7⟩ :=
      ih fuel (nextWait wait) (some e) (Sleep (30 * Second) (answered client (waited wait s)))
        (by omega)
        (by
          intro i hi
          rw [hl, show s.listLog.length + 1 + i = s.listLog.length + (i + 1) by omega]
          exact ht (i + 1) (by omega))
        (by rw [hl, show s.listLog.length + 1 + k = s.listLog.length + (k + 1) by omega]
            exact hr)
        (by rw [hl, sleep_clock, show s.listLog.length + 1 + k = s.listLog.length + (k + 1) by omega]
            exact hc')
    exact ⟨r, hrun, h1, h2, h3, h4, by rw [h5, hl]; omega, by rw [h6, hs]; omega, h7⟩

/-- A loop that finds the deadline not yet reached makes at least one call. -/
theorem retryLoop_calls (client : Client) (dl gr fuel wait : Nat) (last : Option GoError)
    (s : State) (r : RetryResult) (hlt : s.clock + wait < dl)
    (h : retryLoop dl gr (readAttempt client) fuel wait last s = some r) :
    s.listLog.length < r.final.listLog.length := by
  cases fuel with
  | zero => simp [retryLoop] at h
  | succ fuel =>
    rcases retryLoop_step client dl gr fuel wait last s hlt with
      ⟨e, -, -, heq⟩ | ⟨ls, p, -, -, heq⟩ | ⟨ls, m, s', -, -, heq, -, -, -, -, -, hlog, -⟩ |
      ⟨e, -, -, -, heq⟩ | ⟨w, res, fin, heq, -, -, -, -, hfl, -⟩
    · rw [heq] at h
      obtain rfl := Option.some.inj h
      simp [answered, waited]
    · rw [heq] at h
      obtain rfl := Option.some.inj h
      simp [answered, waited]
    · rw [heq] at h
      obtain rfl := Option.some.inj h
      simp [hlog]
    · rw [heq] at h
      obtain ⟨nc, -, h1, -⟩ := retryLoop_log client dl gr _ _ _ _ _ h
      rw [h1]
      simp [Sleep, Sleeping, answered, waited]
      omega
    · rw [heq] at h
      obtain rfl := Option.some.inj h
      simp [hfl]

/-! ## Flattener: claims -/

/-- C1: for every list of License records, `flattenLicenses` returns a list of
the same length whose entry at every index is `flattenLicense` of the record
at that index; the empty list gives the empty list. -/
theorem flattenLicenses_pointwise (recs : List License) :
    ∃ out, flattenLicenses (recs.map some) = .ok out ∧
      out.length = recs.length ∧
      (∀ i : Nat, (out[i]?).map Except.ok = (recs[i]?).map (fun l => flattenLicense (some l))) ∧
      flattenLicenses [] = .ok [] := by
  refine ⟨recs.map mappingOf, flattenLicenses_map_some recs, by simp, ?_, rfl⟩
  intro i
  simp only [List.getElem?_map, Option.map_map]
  rfl

/-- C2: for every License record, `flattenLicense` returns a mapping with
exactly the eleven keys id, type, name, description, summary, role_group,
allocations_available, current_value, self, html_url and valid_roles, each
bound to the corresponding field unchanged; the record with ID L1 and name
Basic maps to those two values and the zero value everywhere else. -/
theorem flattenLicense_fields (l : License) :
    ∃ m, flattenLicense (some l) = .ok m ∧
      m.keys = ["id", "type", "name", "description", "summary", "role_group",
        "allocations_available", "current_value", "self", "html_url", "valid_roles"] ∧
      m.keys.Nodup ∧ m.keys.length = 11 ∧
      m.get "id" = some (.str l.ID) ∧
      m.get "type" = some (.str l.Type_) ∧
      m.get "name" = some (.str l.Name) ∧
      m.get "description" = some (.str l.Description) ∧
      m.get "summary" = some (.str l.Summary) ∧
      m.get "role_group" = some (.str l.RoleGroup) ∧
      m.get "allocations_available" = some (.int l.AllocationsAvailable) ∧
      m.get "current_value" = some (.int l.CurrentValue) ∧
      m.get "self" = some (.str l.Self) ∧
      m.get "html_url" = some (.str l.HTMLURL) ∧
      m.get "valid_roles" = some (.strs l.ValidRoles) ∧
      flattenLicense (some { ID := "L1", Name := "Basic" }) =
        .ok [("id", .str "L1"), ("type", .str ""), ("name", .str "Basic"),
          ("description", .str ""), ("summary", .str ""), ("role_group", .str ""),
          ("allocations_available", .int 0), ("current_value", .int 0),
          ("self", .str ""), ("html_url", .str ""), ("valid_roles", .strs [])] := by
  refine ⟨_, rfl, rfl, by simp [Mapping.keys], rfl, ?_, ?_, ?_, ?_, ?_, ?_, ?_, ?_, ?_, ?_, ?_, rfl⟩ <;>
    simp [Mapping.get, List.find?]

/-- C9, as the claim states it, fails: a list holding a nil record reference
makes `flattenLicenses` panic, and so does `flattenLicense` of nil. -/
theorem flattenLicenses_nil_reference_panics :
    flattenLicenses [some licBasic, none] = .error .nilDeref ∧
      flattenLicense none = .error .nilDeref ∧
      ¬ ∃ out, flattenLicenses [some licBasic, none] = .ok out := by
  refine ⟨rfl, rfl, ?_⟩
  rintro ⟨out, h⟩
  rw [show flattenLicenses [some licBasic, none] = .error .nilDeref from rfl] at h
  cases h

/-- C9, amended: `flattenLicenses` returns a result exactly for the lists
without a nil record reference (the empty list, which is also how a nil list
ranges, among them), `flattenLicense` exactly for a non-nil reference. -/
theorem flattener_total_iff_no_nil (refs : List (Option License)) (r : Option License) :
    ((∃ out, flattenLicenses refs = .ok out) ↔ ∀ x ∈ refs, x ≠ none) ∧
      ((∃ m, flattenLicense r = .ok m) ↔ r ≠ none) ∧
      flattenLicenses [] = .ok [] := by
  refine ⟨flattenLicenses_ok_iff refs, ?_, rfl⟩
  cases r with
  | none => simp [flattenLicense]
  | some l => simp [flattenLicense_some]


/-! ## Read handler: claims -/

theorem five_minutes : 5 * Minute = 10 * (30 * Second) := by decide

theorem grace_period : refreshGracePeriod = 30 * Second := rfl

theorem UniqueId_ne_empty (st : State) : (UniqueId st).1 ≠ "" := by
  intro h
  have hl := congrArg String.length h
  simp only [UniqueId, String.length_append] at hl
  have h10 : "terraform-".length = 10 := by decide
  have h0 : "".length = 0 := by decide
  omega

theorem hexDigit_inj : ∀ a, a < 16 → ∀ b, b < 16 → hexDigit a = hexDigit b → a = b := by
  decide

/-- Two generated identifiers are equal only when the counter of the generator
has the same value in both. -/
theorem UniqueId_inj (a b : State) (h : (UniqueId a).1 = (UniqueId b).1) :
    (UniqueId a).2.idCounter = (UniqueId b).2.idCounter := by
  have hd := congrArg String.data h
  simp only [UniqueId, String.data_append, hex8] at hd
  obtain ⟨-, h8⟩ := List.append_inj' hd rfl
  simp only [List.cons.injEq, and_true] at h8
  obtain ⟨d7, d6, d5, d4, d3, d2, d1, d0⟩ := h8
  have hm := fun (n k : Nat) => Nat.mod_lt (n / k) (show 0 < 16 by decide)
  have e7 := hexDigit_inj _ (hm _ _) _ (hm _ _) d7
  have e6 := hexDigit_inj _ (hm _ _) _ (hm _ _) d6
  have e5 := hexDigit_inj _ (hm _ _) _ (hm _ _) d5
  have e4 := hexDigit_inj _ (hm _ _) _ (hm _ _) d4
  have e3 := hexDigit_inj _ (hm _ _) _ (hm _ _) d3
  have e2 := hexDigit_inj _ (hm _ _) _ (hm _ _) d2
  have e1 := hexDigit_inj _ (hm _ _) _ (hm _ _) d1
  have e0 := hexDigit_inj _ (Nat.mod_lt _ (by decide)) _ (Nat.mod_lt _ (by decide)) d0
  have ha : (a.idCounter + 1) % 4294967296 < 4294967296 := Nat.mod_lt _ (by decide)
  have hb : (b.idCounter + 1) % 4294967296 < 4294967296 := Nat.mod_lt _ (by decide)
  show (a.idCounter + 1) % 4294967296 = (b.idCounter + 1) % 4294967296
  omega

theorem sum_durations (c : Nat) (l : List (Nat × Nat)) (h : ∀ p ∈ l, p.2 = c) :
    (l.map Prod.snd).sum = c * l.length := by
  induction l with
  | nil => simp
  | cons a as ih =>
    have ha : a.2 = c := h a (List.mem_cons_self _ _)
    have := ih (fun p hp => h p (List.mem_cons_of_mem _ hp))
    simp only [List.map_cons, List.sum_cons, List.length_cons, ha, this]
    ring

/-- C8: when `Client()` returns an error, the read returns that same error
and the world is untouched: no `List` call, no sleep, no write to the
buffer, whatever the fuel. -/
theorem read_client_error (fuel : Nat) (err : GoError) (s : State) :
    ∃ r, dataSourcePagerDutyLicensesRead fuel ⟨.error err⟩ s = some r ∧
      r.out = .returned (some err) ∧ r.late = none ∧ r.atReturn = s ∧ r.final = s ∧
      r.atReturn.listLog = s.listLog ∧ r.atReturn.sleeps = s.sleeps ∧
      r.atReturn.clock = s.clock ∧ r.atReturn.d = s.d :=
  ⟨_, rfl, rfl, rfl, rfl, rfl, rfl, rfl, rfl, rfl⟩

/-- C4, as the claim states it, fails: the first `List` call takes 331 seconds
and then fails with HTTP 400, but five and a half minutes into the read the
retry gives up, and the read returns a time-out error instead of the 400. -/
theorem late_bad_request_times_out :
    (clientLateBad.LicensesList s0.listLog.length).result = .error errBad ∧
      isErrCode errBad StatusBadRequest = true ∧
      ∃ r, dataSourcePagerDutyLicensesRead 11 ⟨.ok clientLateBad⟩ s0 = some r ∧
        r.out = .returned (some timeoutError) ∧ r.out ≠ .returned (some errBad) ∧
        r.atReturn.clock = 330 * Second ∧ r.atReturn.listLog = [0] :=
  ⟨rfl, rfl, _, rfl, rfl, by decide, rfl, rfl⟩

/-- C4, amended: when the first `List` call of a read fails with an error
classified as HTTP 400 and its answer is there earlier than thirty seconds
after the five minutes, the read returns that error after exactly this one
call, without any sleep and without a write to the buffer. -/
theorem read_bad_request (fuel : Nat) (client : Client) (s : State) (e : GoError)
    (hfuel : 0 < fuel)
    (hr : (client.LicensesList s.listLog.length).result = .error e)
    (hb : isErrCode e StatusBadRequest = true)
    (hlat : (client.LicensesList s.listLog.length).latency < 5 * Minute + 30 * Second) :
    ∃ r, dataSourcePagerDutyLicensesRead fuel ⟨.ok client⟩ s = some r ∧
      r.out = .returned (some e) ∧ r.late = none ∧ r.final = r.atReturn ∧
      r.atReturn.listLog.length = s.listLog.length + 1 ∧ r.atReturn.sleeps = s.sleeps ∧
      r.atReturn.d = s.d := by
  obtain ⟨fuel, rfl⟩ : ∃ j, fuel = j + 1 := ⟨fuel - 1, by omega⟩
  have hrun := retryLoop_bad client (s.clock + 5 * Minute) refreshGracePeriod fuel 0 none s e
    (by have : 0 < 5 * Minute := by decide
        omega) hr hb
    (by show s.clock + 0 + (client.LicensesList s.listLog.length).latency ≤
          s.clock + 5 * Minute + refreshGracePeriod
        rw [grace_period]; omega)
  exact ⟨_, hrun, rfl, rfl, rfl, by simp [answered, waited], rfl, rfl⟩

/-- C5: when `k` calls of the list endpoint fail with an error other than HTTP
400 and the next attempt succeeds, its answer being there before the five
minutes have elapsed, with a list of License records, the read returns no
error and the attribute `licenses` is the flattening of that list. -/
theorem read_transient_then_success (fuel k : Nat) (client : Client) (s : State)
    (recs : List License) (hk : k < fuel)
    (hfail : ∀ i, i < k → isTransient client (s.listLog.length + i) = true)
    (hok : (client.LicensesList (s.listLog.length + k)).result = .ok (recs.map some))
    (hin : attemptStart client s.listLog.length s.clock 0 k +
      (client.LicensesList (s.listLog.length + k)).latency < s.clock + 5 * Minute) :
    ∃ m r, flattenLicenses (recs.map some) = .ok m ∧
      dataSourcePagerDutyLicensesRead fuel ⟨.ok client⟩ s = some r ∧
      r.out = .returned none ∧ r.late = none ∧ r.final = r.atReturn ∧
      r.atReturn.d.licenses = some m ∧ r.atReturn.sleeps.length = s.sleeps.length + k := by
  obtain ⟨r, hrun, h1, h2, h3, h4, -, h6, -⟩ :=
    retryLoop_transient_then_ok client (s.clock + 5 * Minute) refreshGracePeriod _ _
      (flattenLicenses_map_some recs) k fuel 0 none s hk hfail hok hin
  exact ⟨_, r, flattenLicenses_map_some recs, hrun, h1, h2, h3, h4, h6⟩

/-- C3, as the claim states it, fails: the caller supplies the empty string as
identifier, `GetOk` reports it as not set, and after a successful read the
identifier is a generated one, not the empty string. -/
theorem empty_identifier_is_replaced :
    sEmptyId.d.idAttr = some "" ∧
      ∃ r, dataSourcePagerDutyLicensesRead 11 ⟨.ok clientOk⟩ sEmptyId = some r ∧
        r.out = .returned none ∧ r.atReturn.d.Id = some "terraform-000000001" ∧
        r.atReturn.d.Id ≠ some "" :=
  ⟨rfl, _, rfl, rfl, rfl, by decide⟩

/-- C3, amended: after a successful read the identifier of the data source is
the value of the attribute `id` when the caller supplied one that is not the
empty string. When the caller supplied none, or the empty string, it is an
identifier freshly generated in this read: the generator is advanced, the
identifier is not empty, and it differs from every identifier generated at
another value of the counter. -/
theorem read_identifier (fuel : Nat) (cfg : Config) (s : State) (r : RetryResult)
    (h : dataSourcePagerDutyLicensesRead fuel cfg s = some r) (hok : r.out = .returned none) :
    (∀ v, s.d.idAttr = some v → v ≠ "" → r.atReturn.d.Id = some v) ∧
      (s.d.idAttr = none ∨ s.d.idAttr = some "" →
        ∃ st, st.idCounter = s.idCounter ∧ st.clock = r.atReturn.clock ∧
          r.atReturn.d.Id = some (UniqueId st).1 ∧ (UniqueId st).1 ≠ "" ∧
          r.atReturn.idCounter = (UniqueId st).2.idCounter ∧
          ∀ st2, (UniqueId st2).2.idCounter ≠ (UniqueId st).2.idCounter →
            (UniqueId st2).1 ≠ (UniqueId st).1) := by
  obtain ⟨c⟩ := cfg
  cases c with
  | error err =>
    simp only [dataSourcePagerDutyLicensesRead] at h
    obtain rfl := Option.some.inj h
    cases hok
  | ok client =>
    rcases retryLoop_buffer client _ _ fuel 0 none s r h with
      ⟨-, -, -, -, -, ⟨st, hst, hcnt, hclk, hid, hadv⟩, -⟩ | ⟨hne, -⟩
    · have hg : st.d.GetOk "id" = s.d.GetOk "id" := by rw [hst]
      constructor
      · intro v hv hv'
        have hget : s.d.GetOk "id" = (v, true) := by
          simp [ResourceData.GetOk, hv, hv']
        rw [hid, resolvedId, hg, hget]; rfl
      · intro hv
        have hget : (s.d.GetOk "id").2 = false := by
          rcases hv with hv | hv <;> simp [ResourceData.GetOk, hv]
        refine ⟨st, hcnt, hclk, ?_, UniqueId_ne_empty st, ?_, ?_⟩
        · rw [hid, resolvedId, hg, hget]; rfl
        · rw [hadv, hget]; rfl
        · intro st2 hne heq
          exact hne (UniqueId_inj st2 st heq)
    · exact absurd hok hne

/-- C6, as the claim states it, fails: every call takes 40 seconds and fails
with its own server error. The fifth call begins at 287.5 seconds and its
failure is seen at 327.5 seconds, but its callback is still in its sleep when
the retry gives up at 330 seconds, so the read returns the error of the fourth
call, not the last error observed. -/
theorem deadline_returns_error_before_last :
    (∀ n, isTransient clientSlow n = true) ∧
      ∃ r, dataSourcePagerDutyLicensesRead 11 ⟨.ok clientSlow⟩ s0 = some r ∧
        r.out = .returned (some (.api 503 "Server Error")) ∧
        r.atReturn.clock = 330 * Second ∧ r.atReturn.listLog.length = 5 ∧
        r.atReturn.sleeps.head? = some (327500 * Millisecond, 30 * Second) ∧
        (clientSlow.LicensesList 4).result = .error (.api 504 "Server Error") := by
  refine ⟨?_, _, rfl, rfl, rfl, rfl, rfl, rfl⟩
  intro n
  simp [isTransient, clientSlow, isErrCode, StatusBadRequest]
  omega

/-- C6, amended: when every `List` call fails with an error other than HTTP
400, the read ends between the five minutes and thirty seconds after them and
leaves the buffer as it was, also afterwards. It returns the error of the last
`List` call made when no callback is running at the return; when one is still
running, it returns the error of the call before, or the time-out error if
there is no call before. -/
theorem read_deadline (fuel : Nat) (client : Client) (s : State)
    (hall : ∀ n, s.listLog.length ≤ n → isTransient client n = true) :
    ∃ e r, dataSourcePagerDutyLicensesRead (fuel + 11) ⟨.ok client⟩ s = some r ∧
      r.out = .returned (some e) ∧
      s.clock + 5 * Minute ≤ r.atReturn.clock ∧
      r.atReturn.clock ≤ s.clock + 5 * Minute + 30 * Second ∧
      r.atReturn.d = s.d ∧ r.final.d = s.d ∧
      s.listLog.length < r.final.listLog.length ∧
      ((r.late = none ∧
          (client.LicensesList (r.final.listLog.length - 1)).result = .error e) ∨
        (r.late ≠ none ∧
          ((r.final.listLog.length = s.listLog.length + 1 ∧ e = timeoutError) ∨
            (s.listLog.length + 1 < r.final.listLog.length ∧
              (client.LicensesList (r.final.listLog.length - 2)).result = .error e)))) := by
  have hpos : s.clock + 0 < s.clock + 5 * Minute := by
    have : 0 < 5 * Minute := by decide
    omega
  obtain ⟨r, hrun⟩ := retryLoop_total client (s.clock + 5 * Minute) refreshGracePeriod 10
    (fuel + 11) 0 none s (by omega) (by rw [five_minutes]; omega)
  obtain ⟨e, h1, h2, h3, h4, h5, h6⟩ :=
    retryLoop_all_transient client (s.clock + 5 * Minute) refreshGracePeriod _ hall
      (fuel + 11) 0 none s r (Nat.le_refl _) (by omega) hrun
  have hcalls := retryLoop_calls client _ _ _ _ _ _ _ hpos hrun
  refine ⟨e, r, hrun, h1, h2, h3, h4, h5, hcalls, ?_⟩
  rcases h6 with ⟨hnone, ⟨hc, -⟩ | ⟨-, hc⟩⟩ | ⟨hsome, hc⟩
  · rw [hc] at hcalls; omega
  · exact Or.inl ⟨hnone, hc⟩
  · exact Or.inr ⟨hsome, hc⟩

/-- C7, as the claim states it, fails: the first `List` call takes 331 seconds
and succeeds. The retry gives up at 330 seconds and the read returns a
time-out error with nothing written; the callback, which is not cancelled,
then writes the license list and the identifier. -/
theorem error_returned_and_buffer_written :
    ∃ r, dataSourcePagerDutyLicensesRead 11 ⟨.ok clientLateOk⟩ s0 = some r ∧
      r.out = .returned (some timeoutError) ∧ r.atReturn.clock = 330 * Second ∧
      r.atReturn.d = s0.d ∧ r.late = some (.ok none) ∧ r.final.clock = 331 * Second ∧
      r.final.d.licenses = some [mappingOf licBasic] ∧
      r.final.d.Id = some "terraform-33100000000000000001" :=
  ⟨_, rfl, rfl, rfl, rfl, rfl, rfl, rfl, rfl⟩

/-- C7, amended: every read whose list endpoint answers with License records
ends, and it is all-or-nothing on the buffer at its return: either it returns
success and the flattened answer of the last `List` call and an identifier are
stored, or it returns an error and nothing has been written. After an error
the buffer also stays as it was, unless a callback was still running at the
return and goes on to succeed: that one stores the list and an identifier
after the return. -/
theorem read_all_or_nothing (fuel : Nat) (cfg : Config) (s : State)
    (hrec : ∀ client, cfg.Client = .ok client →
      ∀ n ls, (client.LicensesList n).result = .ok ls → ∀ x ∈ ls, x ≠ none) :
    ∃ r, dataSourcePagerDutyLicensesRead (fuel + 11) cfg s = some r ∧
      ((r.out = .returned none ∧ r.late = none ∧ r.final = r.atReturn ∧
          (∃ client ls m, cfg.Client = .ok client ∧
            (client.LicensesList (r.atReturn.listLog.length - 1)).result = .ok ls ∧
            flattenLicenses ls = .ok m ∧ r.atReturn.d.licenses = some m) ∧
          (∃ u, r.atReturn.d.Id = some u)) ∨
        ((∃ e, r.out = .returned (some e)) ∧ r.atReturn.d = s.d ∧
          (r.final.d = s.d ∨
            (r.late = some (.ok none) ∧
              ∃ client ls m, cfg.Client = .ok client ∧
                (client.LicensesList (r.final.listLog.length - 1)).result = .ok ls ∧
                flattenLicenses ls = .ok m ∧ r.final.d.licenses = some m ∧
                ∃ u, r.final.d.Id = some u)))) := by
  obtain ⟨c⟩ := cfg
  cases c with
  | error err => exact ⟨_, rfl, Or.inr ⟨⟨err, rfl⟩, rfl, Or.inl rfl⟩⟩
  | ok client =>
    obtain ⟨r, hrun⟩ := retryLoop_total client (s.clock + 5 * Minute) refreshGracePeriod 10
      (fuel + 11) 0 none s (by omega) (by rw [five_minutes]; omega)
    refine ⟨r, hrun, ?_⟩
    rcases retryLoop_buffer client _ _ _ _ _ _ _ hrun with
      ⟨h1, h2, h3, -, ⟨ls, m, h5, h6, h7⟩, ⟨st, -, -, -, hid, -⟩, -⟩ | ⟨hne, hd, hfin, hpanic⟩
    · exact Or.inl ⟨h1, h2, h3, ⟨client, ls, m, rfl, h5, h6, h7⟩, ⟨_, hid⟩⟩
    · refine Or.inr ⟨?_, hd, ?_⟩
      · cases hout : r.out with
        | returned x =>
          cases x with
          | none => exact absurd hout hne
          | some e => exact ⟨e, rfl⟩
        | panicked p =>
          obtain ⟨n, ls, hr, hf⟩ := hpanic p hout
          obtain ⟨m, hm⟩ := (flattenLicenses_ok_iff ls).mpr (hrec client rfl n ls hr)
          rw [hm] at hf; cases hf
      · rcases hfin with hfin | ⟨hl, ls, m, h5, h6, h7, h8⟩
        · exact Or.inl hfin
        · exact Or.inr ⟨hl, client, ls, m, rfl, h5, h6, h7, h8⟩

/-- C10, as the claim states it, fails: every call takes 40 seconds and fails
with a server error. The fifth call begins at 287.5 seconds, its failure is
seen at 327.5 seconds, after the five minutes have elapsed, and the handler
begins its sleep of thirty seconds there; the sleep is still running when the
read returns at 330 seconds. -/
theorem sleep_begins_after_deadline :
    ∃ r, dataSourcePagerDutyLicensesRead 11 ⟨.ok clientSlow⟩ s0 = some r ∧
      r.atReturn.sleeps.head? = some (327500 * Millisecond, 30 * Second) ∧
      r.atReturn.listLog.head? = some (287500 * Millisecond) ∧
      s0.clock + 5 * Minute ≤ 327500 * Millisecond ∧
      r.atReturn.clock = 330 * Second ∧
      r.atReturn.clock < 327500 * Millisecond + 30 * Second ∧ r.late ≠ none :=
  ⟨_, rfl, rfl, rfl, by decide, rfl, by decide, by simp⟩

/-- C10, amended: every `List` failure other than HTTP 400 is followed by a
sleep of thirty seconds and reported as retryable. Every read ends, and each of
its `List` calls began before the five minutes had elapsed. Once the last
callback has ended, the sleeps of the read are one of thirty seconds for each
such failure among those calls, thirty seconds times their number in total, so
none follows a success or a 400. At the return of the read all of them have
begun except possibly the one of a callback that is still running. -/
theorem read_sleeps (fuel : Nat) (client : Client) (s : State) :
    (∀ st e, (client.LicensesList st.listLog.length).result = .error e →
        isErrCode e StatusBadRequest = false →
        (readAttempt client st).result = .ok (some (RetryableError e)) ∧
        (readAttempt client st).final st = Sleep (30 * Second) (answered client st)) ∧
      ∃ r newCalls newSleeps,
        dataSourcePagerDutyLicensesRead (fuel + 11) ⟨.ok client⟩ s = some r ∧
        r.final.listLog = newCalls ++ s.listLog ∧
        (∀ c ∈ newCalls, c < s.clock + 5 * Minute) ∧
        r.final.sleeps = newSleeps ++ s.sleeps ∧ (∀ p ∈ newSleeps, p.2 = 30 * Second) ∧
        newSleeps.length = transientFailures client s.listLog.length newCalls.length ∧
        (newSleeps.map Prod.snd).sum =
          30 * Second * transientFailures client s.listLog.length newCalls.length ∧
        r.atReturn.listLog = r.final.listLog ∧
        (r.atReturn.sleeps = r.final.sleeps ∨
          (r.late ≠ none ∧ ∃ p, r.final.sleeps = p :: r.atReturn.sleeps)) ∧
        (r.late = none → r.atReturn = r.final) := by
  refine ⟨fun st e hr hb => ?_, ?_⟩
  · rw [readAttempt_transient client st e hr hb]
    exact ⟨rfl, rfl⟩
  · obtain ⟨r, hrun⟩ := retryLoop_total client (s.clock + 5 * Minute) refreshGracePeriod 10
      (fuel + 11) 0 none s (by omega) (by rw [five_minutes]; omega)
    obtain ⟨nc, ns, h1, h2, h3, h4, h5, h6, h7, h8⟩ := retryLoop_log client _ _ _ _ _ _ _ hrun
    exact ⟨r, nc, ns, hrun, h1, h2, h3, h4, h5, by rw [sum_durations _ ns h4, h5], h6, h7, h8⟩

/-! ## Instances of the claims that carry a hypothesis -/

/-- C4, amended, at the client that always answers bad request. -/
theorem read_bad_request_witness :
    0 < 11 ∧ (clientBad.LicensesList s0.listLog.length).result = .error errBad ∧
      isErrCode errBad StatusBadRequest = true ∧
      (clientBad.LicensesList s0.listLog.length).latency < 5 * Minute + 30 * Second ∧
      ∃ r, dataSourcePagerDutyLicensesRead 11 ⟨.ok clientBad⟩ s0 = some r ∧
        r.out = .returned (some errBad) ∧ r.late = none ∧ r.final = r.atReturn ∧
        r.atReturn.listLog.length = s0.listLog.length + 1 ∧ r.atReturn.sleeps = s0.sleeps ∧
        r.atReturn.d = s0.d :=
  ⟨by decide, rfl, rfl, by decide,
    read_bad_request 11 clientBad s0 errBad (by decide) rfl rfl (by decide)⟩

/-- C5 at the client that fails once and then answers with the scenario
record: the second attempt begins after 30.5 seconds. -/
theorem read_transient_then_success_witness :
    1 < 11 ∧ (∀ i, i < 1 → isTransient clientFlaky (s0.listLog.length + i) = true) ∧
      (clientFlaky.LicensesList (s0.listLog.length + 1)).result = .ok ([licBasic].map some) ∧
      attemptStart clientFlaky s0.listLog.length s0.clock 0 1 +
        (clientFlaky.LicensesList (s0.listLog.length + 1)).latency < s0.clock + 5 * Minute ∧
      ∃ m r, flattenLicenses ([licBasic].map some) = .ok m ∧
        dataSourcePagerDutyLicensesRead 11 ⟨.ok clientFlaky⟩ s0 = some r ∧
        r.out = .returned none ∧ r.late = none ∧ r.final = r.atReturn ∧
        r.atReturn.d.licenses = some m ∧ r.atReturn.sleeps.length = s0.sleeps.length + 1 :=
  have hfail : ∀ i, i < 1 → isTransient clientFlaky (s0.listLog.length + i) = true := by
    intro i hi
    obtain rfl : i = 0 := by omega
    rfl
  ⟨by decide, hfail, rfl, by decide,
    read_transient_then_success 11 1 clientFlaky s0 [licBasic] (by decide) hfail rfl
      (by decide)⟩

/-- C3, amended, at a caller who supplied the identifier my-licenses and at a
caller who supplied none. -/
theorem read_identifier_witness :
    (dataSourcePagerDutyLicensesRead 11 ⟨.ok clientOk⟩ sId =
        some ⟨.returned none,
          { sId with listLog := [0],
                     d := { idAttr := some "my-licenses",
                            licenses := some [mappingOf licBasic],
                            Id := some "my-licenses" } }, none,
          { sId with listLog := [0],
                     d := { idAttr := some "my-licenses",
                            licenses := some [mappingOf licBasic],
                            Id := some "my-licenses" } }⟩ ∧
      ∀ v, sId.d.idAttr = some v → v ≠ "" → some "my-licenses" = some v) ∧
    (dataSourcePagerDutyLicensesRead 11 ⟨.ok clientOk⟩ s0 =
        some ⟨.returned none,
          { s0 with listLog := [0], idCounter := 1,
                    d := { licenses := some [mappingOf licBasic],
                           Id := some "terraform-000000001" } }, none,
          { s0 with listLog := [0], idCounter := 1,
                    d := { licenses := some [mappingOf licBasic],
                           Id := some "terraform-000000001" } }⟩ ∧
      (s0.d.idAttr = none ∨ s0.d.idAttr = some "" →
        ∃ st, st.idCounter = s0.idCounter ∧ st.clock = 0 ∧
          some "terraform-000000001" = some (UniqueId st).1 ∧ (UniqueId st).1 ≠ "" ∧
          1 = (UniqueId st).2.idCounter ∧
          ∀ st2, (UniqueId st2).2.idCounter ≠ (UniqueId st).2.idCounter →
            (UniqueId st2).1 ≠ (UniqueId st).1)) :=
  ⟨⟨rfl, (read_identifier 11 ⟨.ok clientOk⟩ sId _ rfl rfl).1⟩,
    ⟨rfl, (read_identifier 11 ⟨.ok clientOk⟩ s0 _ rfl rfl).2⟩⟩

/-- C6, amended, at the client that is always rate limited (no callback is
running at the return) and at the client whose calls take 40 seconds (the
fifth callback is). -/
theorem read_deadline_witness :
    ((∀ n, s0.listLog.length ≤ n → isTransient clientDown n = true) ∧
      ∃ e r, dataSourcePagerDutyLicensesRead (0 + 11) ⟨.ok clientDown⟩ s0 = some r ∧
        r.out = .returned (some e) ∧
        s0.clock + 5 * Minute ≤ r.atReturn.clock ∧
        r.atReturn.clock ≤ s0.clock + 5 * Minute + 30 * Second ∧
        r.atReturn.d = s0.d ∧ r.final.d = s0.d ∧
        s0.listLog.length < r.final.listLog.length ∧
        ((r.late = none ∧
            (clientDown.LicensesList (r.final.listLog.length - 1)).result = .error e) ∨
          (r.late ≠ none ∧
            ((r.final.listLog.length = s0.listLog.length + 1 ∧ e = timeoutError) ∨
              (s0.listLog.length + 1 < r.final.listLog.length ∧
                (clientDown.LicensesList (r.final.listLog.length - 2)).result = .error e))))) ∧
    ((∀ n, s0.listLog.length ≤ n → isTransient clientSlow n = true) ∧
      ∃ e r, dataSourcePagerDutyLicensesRead (0 + 11) ⟨.ok clientSlow⟩ s0 = some r ∧
        r.out = .returned (some e) ∧
        s0.clock + 5 * Minute ≤ r.atReturn.clock ∧
        r.atReturn.clock ≤ s0.clock + 5 * Minute + 30 * Second ∧
        r.atReturn.d = s0.d ∧ r.final.d = s0.d ∧
        s0.listLog.length < r.final.listLog.length ∧
        ((r.late = none ∧
            (clientSlow.LicensesList (r.final.listLog.length - 1)).result = .error e) ∨
          (r.late ≠ none ∧
            ((r.final.listLog.length = s0.listLog.length + 1 ∧ e = timeoutError) ∨
              (s0.listLog.length + 1 < r.final.listLog.length ∧
                (clientSlow.LicensesList (r.final.listLog.length - 2)).result = .error e))))) :=
  have hslow : ∀ n, s0.listLog.length ≤ n → isTransient clientSlow n = true := by
    intro n _
    simp [isTransient, clientSlow, isErrCode, StatusBadRequest]
    omega
  ⟨⟨fun _ _ => rfl, read_deadline 0 clientDown s0 (fun _ _ => rfl)⟩,
    ⟨hslow, read_deadline 0 clientSlow s0 hslow⟩⟩

/-- C7, amended, at the client whose first call succeeds after 331 seconds. -/
theorem read_all_or_nothing_witness :
    (∀ client, (Config.mk (.ok clientLateOk)).Client = .ok client →
        ∀ n ls, (client.LicensesList n).result = .ok ls → ∀ x ∈ ls, x ≠ none) ∧
      ∃ r, dataSourcePagerDutyLicensesRead (0 + 11) ⟨.ok clientLateOk⟩ s0 = some r ∧
        ((r.out = .returned none ∧ r.late = none ∧ r.final = r.atReturn ∧
            (∃ client ls m, (Config.mk (.ok clientLateOk)).Client = .ok client ∧
              (client.LicensesList (r.atReturn.listLog.length - 1)).result = .ok ls ∧
              flattenLicenses ls = .ok m ∧ r.atReturn.d.licenses = some m) ∧
            (∃ u, r.atReturn.d.Id = some u)) ∨
          ((∃ e, r.out = .returned (some e)) ∧ r.atReturn.d = s0.d ∧
            (r.final.d = s0.d ∨
              (r.late = some (.ok none) ∧
                ∃ client ls m, (Config.mk (.ok clientLateOk)).Client = .ok client ∧
                  (client.LicensesList (r.final.listLog.length - 1)).result = .ok ls ∧
                  flattenLicenses ls = .ok m ∧ r.final.d.licenses = some m ∧
                  ∃ u, r.final.d.Id = some u)))) :=
  have hrec : ∀ client, (Config.mk (.ok clientLateOk)).Client = .ok client →
      ∀ n ls, (client.LicensesList n).result = .ok ls → ∀ x ∈ ls, x ≠ none := by
    intro client hc n ls hr x hx
    injection hc with hc
    subst hc
    injection hr with hr
    subst hr
    rw [List.mem_singleton.mp hx]
    exact Option.some_ne_none _
  ⟨hrec, read_all_or_nothing 0 ⟨.ok clientLateOk⟩ s0 hrec⟩

end Pagerduty
